import Mathlib

/-!
# Verification of the HLS fragment collector (`fragmentcollector_hls.cpp`)

A shallow embedding of the parts of the AAMP HLS fragment collector that the
checked properties speak about, with theorems settling each property.

Modelling conventions:
* C `double` values are modelled as `ℚ`; C `int` / `long` / `long long`
  values as `ℤ` (kept exact, with explicit truncation where C converts).
* A C cast `(int)x` of a floating value truncates toward zero; this is
  `ctrunc` below.  C integer division also truncates toward zero; it is
  `Int.div`.
* NUL-terminated C strings are modelled as `List Char` (the characters before
  the terminator).  Reading past the terminator is modelled by returning
  `none` from the scanning function.
-/

set_option autoImplicit false

namespace AampHls

/-- C cast of a `double` to an integer type: truncation toward zero. -/
def ctrunc (x : ℚ) : ℤ := if 0 ≤ x then ⌊x⌋ else ⌈x⌉

/-- Constant `#define MAX_DELAY_BETWEEN_PLAYLIST_UPDATE_MS (6*1000)`. -/
def MAX_DELAY_BETWEEN_PLAYLIST_UPDATE_MS : ℤ := 6 * 1000

/-- Constant `#define MIN_DELAY_BETWEEN_PLAYLIST_UPDATE_MS (500)`. -/
def MIN_DELAY_BETWEEN_PLAYLIST_UPDATE_MS : ℤ := 500

/-- Live refresh cadence from `TrackState::RunFetchLoop`
(fragmentcollector_hls.cpp:3650-3707): pick the base delay from the buffer
depth, subtract the time since the last playlist download, and clamp to
`[MIN_DELAY, MAX_DELAY]`.  `bufferAvailable` is in milliseconds. -/
def minDelayBetweenPlaylistUpdates (targetDurationSeconds : ℚ)
    (bufferAvailable : ℤ) (timeSinceLastPlaylistDownload : ℤ) : ℤ :=
  let base : ℤ :=
    if (bufferAvailable : ℚ) > targetDurationSeconds * 2 * 1000 then
      ctrunc ((3 / 2 : ℚ) * 1000 * targetDurationSeconds)
    else if (bufferAvailable : ℚ) > targetDurationSeconds * 1000 then
      ctrunc ((1 / 2 : ℚ) * 1000 * targetDurationSeconds)
    else if bufferAvailable > 2 * MAX_DELAY_BETWEEN_PLAYLIST_UPDATE_MS then
      MAX_DELAY_BETWEEN_PLAYLIST_UPDATE_MS
    else if bufferAvailable ≠ 0 then
      Int.tdiv bufferAvailable 3
    else
      MIN_DELAY_BETWEEN_PLAYLIST_UPDATE_MS
  let adjusted : ℤ := base - timeSinceLastPlaylistDownload
  if adjusted > MAX_DELAY_BETWEEN_PLAYLIST_UPDATE_MS then
    MAX_DELAY_BETWEEN_PLAYLIST_UPDATE_MS
  else if adjusted < MIN_DELAY_BETWEEN_PLAYLIST_UPDATE_MS then
    MIN_DELAY_BETWEEN_PLAYLIST_UPDATE_MS
  else adjusted

/-- Buffer depth used by the cadence computation
(fragmentcollector_hls.cpp:3652-3656):
`endPositionAvailable = (culledSeconds + durationSeconds)*1000` (cast to
`long long`), `bufferAvailable = endPositionAvailable - currentPlayPosition`. -/
def bufferAvailableOf (culledSeconds durationSeconds : ℚ)
    (currentPlayPositionMs : ℤ) : ℤ :=
  ctrunc ((culledSeconds + durationSeconds) * 1000) - currentPlayPositionMs

/-- **C2.** The refresh delay always lands in `[500 ms, 6000 ms]`, and with
`target_duration = 6 s` (elapsed time 0): a 20 s buffer gives 6 s, an 8 s
buffer gives 3 s, and a 1 s buffer gives 500 ms. -/
theorem refresh_cadence_bounds_and_examples :
    (∀ (t : ℚ) (b e : ℤ),
      MIN_DELAY_BETWEEN_PLAYLIST_UPDATE_MS ≤ minDelayBetweenPlaylistUpdates t b e ∧
      minDelayBetweenPlaylistUpdates t b e ≤ MAX_DELAY_BETWEEN_PLAYLIST_UPDATE_MS) ∧
    minDelayBetweenPlaylistUpdates 6 (bufferAvailableOf 0 20 0) 0 = 6000 ∧
    minDelayBetweenPlaylistUpdates 6 (bufferAvailableOf 0 8 0) 0 = 3000 ∧
    minDelayBetweenPlaylistUpdates 6 (bufferAvailableOf 0 1 0) 0 = 500 := by
  refine ⟨?_, ?_, ?_, ?_⟩
  · intro t b e
    simp only [minDelayBetweenPlaylistUpdates, MIN_DELAY_BETWEEN_PLAYLIST_UPDATE_MS,
      MAX_DELAY_BETWEEN_PLAYLIST_UPDATE_MS]
    split_ifs <;> omega
  · norm_num [minDelayBetweenPlaylistUpdates, bufferAvailableOf, ctrunc,
      MAX_DELAY_BETWEEN_PLAYLIST_UPDATE_MS, MIN_DELAY_BETWEEN_PLAYLIST_UPDATE_MS]
  · norm_num [minDelayBetweenPlaylistUpdates, bufferAvailableOf, ctrunc,
      MAX_DELAY_BETWEEN_PLAYLIST_UPDATE_MS, MIN_DELAY_BETWEEN_PLAYLIST_UPDATE_MS]
  · norm_num [minDelayBetweenPlaylistUpdates, bufferAvailableOf, ctrunc,
      MAX_DELAY_BETWEEN_PLAYLIST_UPDATE_MS, MIN_DELAY_BETWEEN_PLAYLIST_UPDATE_MS]
    decide

/-! ## C-string scanning utilities

The playlist text is a NUL-terminated buffer; we model the characters before
the terminator as a `List Char`.  `strstrSuffix pat s` is C `strstr`: the
suffix of `s` beginning at the first occurrence of `pat`. -/

/-- C `strstr`: suffix of `s` starting at the first occurrence of `pat`. -/
def strstrSuffix (pat : List Char) : List Char → Option (List Char)
  | [] => if pat.isPrefixOf ([] : List Char) then some [] else none
  | c :: t => if pat.isPrefixOf (c :: t) then some (c :: t) else strstrSuffix pat t

/-- Test `strstr(s, pat) != NULL`. -/
def hasSubstring (s pat : List Char) : Bool := (strstrSuffix pat s).isSome

/-- Result of `strstr` followed by `ptr += strlen(pat)`: the suffix of `s` right after
the first occurrence of `pat`. -/
def strstrAfter (s pat : List Char) : Option (List Char) :=
  (strstrSuffix pat s).map (List.drop pat.length)

/-- Digit run consumed by C `atoi`/`atoll`/`atof`: accumulated value and the
unconsumed rest. -/
def parseDigits : List Char → ℤ → ℤ × List Char
  | [], acc => (acc, [])
  | c :: t, acc =>
    if c.isDigit then parseDigits t (acc * 10 + ((c.toNat - 48 : ℕ) : ℤ))
    else (acc, c :: t)

/-- C `atoll` / `atoi` on the playlist text: optional leading spaces and sign,
then a decimal digit run (the playlists parsed here carry plain decimals). -/
def aamp_atoll (s : List Char) : ℤ :=
  let s1 := s.dropWhile (fun c => c == ' ' || c == '\t')
  match s1 with
  | c :: t =>
    if c = '-' then -(parseDigits t 0).1
    else if c = '+' then (parseDigits t 0).1
    else (parseDigits (c :: t) 0).1
  | [] => 0

/-- Fractional digit run of C `atof`: `scale` starts at `1/10`. -/
def parseFracDigits : List Char → ℚ → ℚ → ℚ
  | [], _, acc => acc
  | c :: t, scale, acc =>
    if c.isDigit then parseFracDigits t (scale / 10) (acc + scale * ((c.toNat - 48 : ℕ) : ℚ))
    else acc

/-- C `atof` on the playlist text: optional leading spaces and sign, integer
part, optional `.` and fraction (the durations and times parsed here never
use exponent notation). -/
def aamp_atof (s : List Char) : ℚ :=
  let s1 := s.dropWhile (fun c => c == ' ' || c == '\t')
  let signAndRest : ℚ × List Char :=
    match s1 with
    | c :: t =>
      if c = '-' then (-1, t)
      else if c = '+' then (1, t)
      else (1, c :: t)
    | [] => (1, [])
  let ipAndRest := parseDigits signAndRest.2 0
  let frac : ℚ :=
    match ipAndRest.2 with
    | c :: t => if c = '.' then parseFracDigits t (1 / 10) 0 else 0
    | [] => 0
  signAndRest.1 * ((ipAndRest.1 : ℚ) + frac)

/-! ## Media playlist index (`TrackState::IndexPlaylist`) -/

/-- Source enum `ePLAYLISTTYPE_UNDEFINED` / `ePLAYLISTTYPE_VOD` / `ePLAYLISTTYPE_EVENT`. -/
inductive PlaylistType where
  | undefined
  | vod
  | event
deriving DecidableEq, Repr

/-- Source struct `IndexNode` (the fields the checked properties read; `pFragmentInfo`, a
raw pointer into the playlist text, and the DRM-metadata binding are not read
by any checked property and are omitted). -/
structure IndexNode where
  completionTimeSecondsFromStart : ℚ
deriving DecidableEq, Repr

/-- Source struct `DiscontinuityIndexNode`: the fragment index the discontinuity binds to,
its position from playlist start, and the raw text after any preceding
`#EXT-X-PROGRAM-DATE-TIME:` tag. -/
structure DiscontinuityIndexNode where
  fragmentIdx : ℕ
  position : ℚ
  programDateTime : Option (List Char)
deriving DecidableEq, Repr

/-- The per-track index built by `TrackState::IndexPlaylist`
(fragmentcollector_hls.cpp:1808-2192).  `sentInvalidManifestEvent` records
whether `SendErrorEvent(AAMP_TUNE_INVALID_MANIFEST_FAILURE)` fired during the
last index build. -/
structure MediaPlaylistIndex where
  indexFirstMediaSequenceNumber : ℤ
  targetDurationSeconds : ℚ
  playlistType : PlaylistType
  index : List IndexNode
  mDiscontinuityIndex : List DiscontinuityIndexNode
  mDrmMetaDataIndex : List (List Char)
  mDuration : ℚ
  sentInvalidManifestEvent : Bool
deriving DecidableEq, Repr

/-- The playlist-type value a buffer declares through `#EXT-X-PLAYLIST-TYPE:`
(fragmentcollector_hls.cpp:1920-1939): `VOD`, `EVENT`, or `none` when the tag
is absent or its value unknown (the unknown case reports
`aamp_Error("unknown PLAYLIST-TYPE")` and leaves the current type alone). -/
def declaredPlaylistType (buf : List Char) : Option PlaylistType :=
  match strstrAfter buf "#EXT-X-PLAYLIST-TYPE:".toList with
  | some rest =>
    if "VOD".toList.isPrefixOf rest then some PlaylistType.vod
    else if "EVENT".toList.isPrefixOf rest then some PlaylistType.event
    else none
  | none => none

/-- The `#EXT-X-PLAYLIST-TYPE:` / `#EXT-X-ENDLIST` handling of
`TrackState::IndexPlaylist` (fragmentcollector_hls.cpp:1920-1958): a `VOD` or
`EVENT` declaration overwrites the current type; afterwards, if the type is
not VOD and the buffer contains `#EXT-X-ENDLIST`, it becomes VOD. -/
def indexPlaylistTypeUpdate (cur : PlaylistType) (buf : List Char) : PlaylistType :=
  let afterDecl :=
    match declaredPlaylistType buf with
    | some t => t
    | none => cur
  if afterDecl ≠ PlaylistType.vod ∧ hasSubstring buf "#EXT-X-ENDLIST".toList then
    PlaylistType.vod
  else afterDecl

/-- The `#EXT-X-FAXS-CM:` scan of `TrackState::IndexPlaylist`
(fragmentcollector_hls.cpp:1872-1913): collect one DRM-metadata node per tag,
its payload running to the line end (CR trimmed); if no line end follows, the
payload is the rest of the buffer and the scan stops.  The node's decoded
bytes and SHA-1 hash are kept abstract as the raw payload text (no checked
property reads them).  `fuel` bounds the scan by the buffer length; the C loop
advances at least one character per iteration. -/
def collectFaxsCm (fuel : ℕ) (s : List Char) : List (List Char) :=
  match fuel, s with
  | 0, _ => []
  | _, [] => []
  | fuel + 1, c :: t =>
    if "#EXT-X-FAXS-CM:".toList.isPrefixOf (c :: t) then
      let payloadStart := t.drop 14
      let raw := payloadStart.takeWhile (fun x => x != '\n')
      let payload := if raw.getLast? = some '\r' then raw.dropLast else raw
      payload :: collectFaxsCm fuel (payloadStart.drop (raw.length + 1))
    else collectFaxsCm fuel t

/-- The "build new index" loop of `TrackState::IndexPlaylist`
(fragmentcollector_hls.cpp:1979-2143): scan for `#EXT` occurrences; on
`#EXTINF:` flush any pending discontinuity node (bound to the next fragment
index and the running duration), add the fragment's duration and append a
fragment node; on `#EXT-X-DISCONTINUITY` set the pending flag (only once
`totalDuration` is nonzero); on `#EXT-X-PROGRAM-DATE-TIME:` remember the text
after the tag for the next discontinuity node.  The `EXT-X-KEY` /
`EXT-X-X1-LIN-CK` / subscribed-tag branches touch only DRM and event state
that no checked property reads and are scanned over like other tags.  `fuel`
bounds the scan by the buffer length. -/
def indexCoreLoop (fuel : ℕ) (s : List Char) (totalDuration : ℚ) (indexCount : ℕ)
    (discontinuity : Bool) (pdt : Option (List Char)) (idx : List IndexNode)
    (disc : List DiscontinuityIndexNode) :
    ℚ × List IndexNode × List DiscontinuityIndexNode :=
  match fuel, s with
  | 0, _ => (totalDuration, idx, disc)
  | _, [] => (totalDuration, idx, disc)
  | fuel + 1, c :: t =>
    if "#EXT".toList.isPrefixOf (c :: t) then
      let rest := t.drop 3
      if "INF:".toList.isPrefixOf rest then
        let disc2 :=
          if discontinuity then disc ++ [⟨indexCount, totalDuration, pdt⟩] else disc
        let total2 := totalDuration + aamp_atof (rest.drop 4)
        indexCoreLoop fuel (rest.drop 8) total2 (indexCount + 1) false none
          (idx ++ [⟨total2⟩]) disc2
      else if "-X-DISCONTINUITY".toList.isPrefixOf rest then
        indexCoreLoop fuel rest totalDuration indexCount
          (if totalDuration ≠ 0 then true else discontinuity) pdt idx disc
      else if "-X-PROGRAM-DATE-TIME:".toList.isPrefixOf rest then
        indexCoreLoop fuel rest totalDuration indexCount discontinuity
          (some (rest.drop 21)) idx disc
      else
        indexCoreLoop fuel rest totalDuration indexCount discontinuity pdt idx disc
    else indexCoreLoop fuel t totalDuration indexCount discontinuity pdt idx disc

/-- Function `TrackState::IndexPlaylist` (fragmentcollector_hls.cpp:1808-2192) as a
state step.  `FlushIndex()` first empties every index collection; a buffer
that does not begin with `#EXTM3U` sends the invalid-manifest failure event
and returns with `mDuration = 0`; otherwise the header scans, DRM-metadata
scan, playlist-type update and index-building pass run over the buffer. -/
def IndexPlaylist (st : MediaPlaylistIndex) (playlist : List Char) : MediaPlaylistIndex :=
  let flushed : MediaPlaylistIndex :=
    { st with indexFirstMediaSequenceNumber := 0, index := [],
              mDiscontinuityIndex := [], mDrmMetaDataIndex := [],
              sentInvalidManifestEvent := false }
  if "#EXTM3U".toList.isPrefixOf playlist then
    let first : ℤ :=
      match strstrAfter playlist "#EXT-X-MEDIA-SEQUENCE:".toList with
      | some rest => aamp_atoll rest
      | none => 0
    let target : ℚ :=
      match strstrAfter playlist "#EXT-X-TARGETDURATION:".toList with
      | some rest => aamp_atof rest
      | none => st.targetDurationSeconds
    let faxs := collectFaxsCm playlist.length playlist
    let ptype := indexPlaylistTypeUpdate st.playlistType playlist
    let built := indexCoreLoop playlist.length playlist 0 0 false none [] []
    { indexFirstMediaSequenceNumber := first
      targetDurationSeconds := target
      playlistType := ptype
      index := built.2.1
      mDiscontinuityIndex := built.2.2
      mDrmMetaDataIndex := faxs
      mDuration := built.1
      sentInvalidManifestEvent := false }
  else
    { flushed with mDuration := 0, sentInvalidManifestEvent := true }

/-! ## Playlist refresh (`TrackState::RefreshPlaylist`) -/

/-- Constant `#define MAX_MANIFEST_DOWNLOAD_RETRY 3`. -/
def MAX_MANIFEST_DOWNLOAD_RETRY : ℕ := 3

/-- Function `GetCompletionTimeForFragment` (fragmentcollector_hls.cpp:1614-1636):
the completion time recorded in the fragment index for a media sequence
number; indexes past the end are clamped to the last node, negative indexes
and an empty index give `0`. -/
def GetCompletionTimeForFragment (trackState : MediaPlaylistIndex)
    (mediaSequenceNumber : ℤ) : ℚ :=
  if 0 < trackState.index.length then
    let idx : ℤ := mediaSequenceNumber - trackState.indexFirstMediaSequenceNumber
    if 0 ≤ idx then
      (trackState.index.getD (min idx.toNat (trackState.index.length - 1))
        ⟨0⟩).completionTimeSecondsFromStart
    else 0
  else 0

/-- Line splitting done by `mystrpbrk` (fragmentcollector_hls.cpp:470-484):
lines are terminated by LF or CRLF; a trailing CR is trimmed.  `fuel` bounds
the recursion by the buffer length. -/
def splitLinesAux (fuel : ℕ) (s : List Char) : List (List Char) :=
  let line := s.takeWhile (fun c => c != '\n')
  let trimmed := if line.getLast? = some '\r' then line.dropLast else line
  match fuel with
  | 0 => [trimmed]
  | fuel + 1 =>
    if line.length < s.length then trimmed :: splitLinesAux fuel (s.drop (line.length + 1))
    else [trimmed]

/-- The playlist text as the list of lines `mystrpbrk` produces. -/
def splitLines (s : List Char) : List (List Char) := splitLinesAux s.length s

/-- Function `TrackState::FindMediaForSequenceNumber`
(fragmentcollector_hls.cpp:1211-1256) as a loop over the playlist lines:
track the running fragment duration (`#EXTINF:`) and sequence counter
(`#EXT-X-MEDIA-SEQUENCE:`, incremented per URI line); return the first URI
line whose sequence number reaches `mediaSequenceNumber`, bumping
`nextMediaSequenceNumber` past a sequence gap.  The `#EXT-X-KEY:` branch only
re-parses DRM key state that no checked property reads.  Returns
`(found URI line, fragmentDurationSeconds, nextMediaSequenceNumber)`. -/
def findMediaForSequenceNumberLoop (lines : List (List Char)) (seq : ℤ)
    (mediaSequenceNumber : ℤ) (fragmentDurationSeconds : ℚ)
    (nextMediaSequenceNumber : ℤ) : Option (List Char) × ℚ × ℤ :=
  match lines with
  | [] => (none, fragmentDurationSeconds, nextMediaSequenceNumber)
  | l :: rest =>
    if l = [] then
      findMediaForSequenceNumberLoop rest seq mediaSequenceNumber
        fragmentDurationSeconds nextMediaSequenceNumber
    else if "#EXTINF:".toList.isPrefixOf l then
      findMediaForSequenceNumberLoop rest seq mediaSequenceNumber
        (aamp_atof (l.drop 8)) nextMediaSequenceNumber
    else if "#EXT-X-MEDIA-SEQUENCE:".toList.isPrefixOf l then
      findMediaForSequenceNumberLoop rest (aamp_atoll (l.drop 22))
        mediaSequenceNumber fragmentDurationSeconds nextMediaSequenceNumber
    else if l.headD ' ' ≠ '#' then
      if seq ≥ mediaSequenceNumber then
        (some l, fragmentDurationSeconds,
          if seq ≠ mediaSequenceNumber then seq + 1 else nextMediaSequenceNumber)
      else
        findMediaForSequenceNumberLoop rest (seq + 1) mediaSequenceNumber
          fragmentDurationSeconds nextMediaSequenceNumber
    else
      findMediaForSequenceNumberLoop rest seq mediaSequenceNumber
        fragmentDurationSeconds nextMediaSequenceNumber

/-- The per-track state read and written by `TrackState::RefreshPlaylist`.
`fragmentURI` is the walk cursor (a pointer into the playlist text, modelled
as the suffix line it points at, `none` for NULL). -/
structure TrackRefreshState where
  playlist : List Char
  idx : MediaPlaylistIndex
  fragmentURI : Option (List Char)
  playlistPosition : ℚ
  nextMediaSequenceNumber : ℤ
  fragmentDurationSeconds : ℚ
  mCulledSeconds : ℚ
  manifestDLFailCount : ℕ
deriving DecidableEq, Repr

/-- Function `TrackState::RefreshPlaylist` (fragmentcollector_hls.cpp:2273-2380)
as a state step.  `download` is the result of the playlist re-download
(`none` when `GetFile` produced no data), `httpTimedOut` whether the failure
was `CURLE_OPERATION_TIMEDOUT` / `CURLE_COULDNT_CONNECT`.  On success the new
buffer replaces the old one and is indexed, and the fragment cursor is reset
(whole-playlist walk for VOD, sequence-number lookup otherwise); on failure
the previous buffer is restored and kept in use.  Finally the seconds of
content before the common sequence number in the old and new index are
compared and their difference is added to `mCulledSeconds` (the curl-timeout
return and the download-error return skip that update).  The network-down
flag and the download-error event carry no track state and are elided. -/
def RefreshPlaylist (st : TrackRefreshState) (download : Option (List Char))
    (httpTimedOut : Bool) : TrackRefreshState :=
  let commonPlayPosition : ℤ := st.nextMediaSequenceNumber - 1
  let prevSecondsBeforePlayPoint := GetCompletionTimeForFragment st.idx commonPlayPosition
  let culledUpdate : TrackRefreshState → TrackRefreshState := fun s =>
    { s with mCulledSeconds :=
        s.mCulledSeconds +
          (prevSecondsBeforePlayPoint -
            GetCompletionTimeForFragment s.idx commonPlayPosition) }
  match download with
  | some newPlaylist =>
    let idx2 := IndexPlaylist st.idx newPlaylist
    let st1 : TrackRefreshState :=
      if idx2.mDuration > 0 then
        if idx2.playlistType ≠ PlaylistType.vod then
          let found := findMediaForSequenceNumberLoop (splitLines newPlaylist) 0
            commonPlayPosition st.fragmentDurationSeconds st.nextMediaSequenceNumber
          { st with playlist := newPlaylist, idx := idx2, fragmentURI := found.1,
                    fragmentDurationSeconds := found.2.1,
                    nextMediaSequenceNumber := found.2.2, manifestDLFailCount := 0 }
        else
          { st with playlist := newPlaylist, idx := idx2,
                    fragmentURI := some newPlaylist, playlistPosition := -1,
                    manifestDLFailCount := 0 }
      else
        { st with playlist := newPlaylist, idx := idx2 }
    culledUpdate st1
  | none =>
    if httpTimedOut then st
    else
      let st1 : TrackRefreshState :=
        { st with manifestDLFailCount := st.manifestDLFailCount + 1 }
      if st.fragmentURI = none ∧
          st1.manifestDLFailCount > MAX_MANIFEST_DOWNLOAD_RETRY then st1
      else culledUpdate st1

/-! ## Playlist-kind transitions (C7) and invalid-manifest handling (C8) -/

/-- A `MediaPlaylistIndex` as first constructed (no index built yet). -/
def initialIndexState : MediaPlaylistIndex :=
  { indexFirstMediaSequenceNumber := 0, targetDurationSeconds := 0,
    playlistType := PlaylistType.undefined, index := [], mDiscontinuityIndex := [],
    mDrmMetaDataIndex := [], mDuration := 0, sentInvalidManifestEvent := false }

/-- Helper: the playlist-type declaration is never `undefined`. -/
theorem declaredPlaylistType_not_undefined (buf : List Char) :
    declaredPlaylistType buf ≠ some PlaylistType.undefined := by
  unfold declaredPlaylistType
  cases strstrAfter buf "#EXT-X-PLAYLIST-TYPE:".toList with
  | none => simp
  | some rest =>
    dsimp only
    split_ifs <;> simp

/-- Helper: when the buffer does not declare `EVENT` while lacking
`#EXT-X-ENDLIST`, re-indexing from `vod` keeps `vod`. -/
theorem indexPlaylistTypeUpdate_vod (buf : List Char)
    (h : ¬(declaredPlaylistType buf = some PlaylistType.event ∧
        hasSubstring buf "#EXT-X-ENDLIST".toList = false)) :
    indexPlaylistTypeUpdate PlaylistType.vod buf = PlaylistType.vod := by
  simp only [indexPlaylistTypeUpdate]
  cases hd : declaredPlaylistType buf with
  | none => simp
  | some t =>
    cases t with
    | undefined => exact absurd hd (declaredPlaylistType_not_undefined buf)
    | vod => simp
    | event =>
      have hend : hasSubstring buf "#EXT-X-ENDLIST".toList = true := by
        rcases Bool.eq_false_or_eq_true (hasSubstring buf "#EXT-X-ENDLIST".toList) with ht | hf
        · exact ht
        · exact absurd ⟨hd, hf⟩ h
      simp only [hend]
      simp

/-- Helper: a buffer containing `#EXT-X-ENDLIST` always leaves the playlist
type at `vod`, whatever it was before. -/
theorem indexPlaylistTypeUpdate_endlist (cur : PlaylistType) (buf : List Char)
    (h : hasSubstring buf "#EXT-X-ENDLIST".toList = true) :
    indexPlaylistTypeUpdate cur buf = PlaylistType.vod := by
  simp only [indexPlaylistTypeUpdate, h]
  split_ifs with h1
  · rfl
  · simp only [and_true, ne_eq, not_not] at h1
    exact h1

/-- **C7** (counterexample): with the playlist type already `vod`, indexing a
playlist that declares `#EXT-X-PLAYLIST-TYPE:EVENT` and carries no
`#EXT-X-ENDLIST` moves the type to `event` — `vod` is not absorbing as the
claim states. -/
theorem playlistType_vod_to_event_counterexample :
    (IndexPlaylist { initialIndexState with playlistType := PlaylistType.vod }
        "#EXTM3U\n#EXT-X-PLAYLIST-TYPE:EVENT\n#EXTINF:2,\nf.ts\n".toList).playlistType
        = PlaylistType.event ∧
    PlaylistType.event ≠ PlaylistType.vod := by
  constructor
  · simp +decide [IndexPlaylist, indexPlaylistTypeUpdate, strstrSuffix, strstrAfter,
      hasSubstring, initialIndexState]
  · decide

/-- **C7** (amended): once the playlist type is `vod`, re-indexing keeps it
`vod` unless the new playlist explicitly declares `EXT-X-PLAYLIST-TYPE:EVENT`
without an `EXT-X-ENDLIST` tag; and indexing any `#EXTM3U` playlist that
contains `EXT-X-ENDLIST` sets the type to `vod` (in particular the
`undefined → vod` transition). -/
theorem playlistType_vod_absorbing_unless_event :
    (∀ (st : MediaPlaylistIndex) (buf : List Char),
        st.playlistType = PlaylistType.vod →
        ¬(declaredPlaylistType buf = some PlaylistType.event ∧
            hasSubstring buf "#EXT-X-ENDLIST".toList = false) →
        (IndexPlaylist st buf).playlistType = PlaylistType.vod) ∧
    (∀ (st : MediaPlaylistIndex) (buf : List Char),
        "#EXTM3U".toList.isPrefixOf buf = true →
        hasSubstring buf "#EXT-X-ENDLIST".toList = true →
        (IndexPlaylist st buf).playlistType = PlaylistType.vod) := by
  constructor
  · intro st buf hvod hside
    by_cases hpre : "#EXTM3U".toList.isPrefixOf buf = true
    · simp only [IndexPlaylist, hpre, if_true]
      rw [hvod]
      exact indexPlaylistTypeUpdate_vod buf hside
    · simp only [Bool.not_eq_true] at hpre
      simp only [IndexPlaylist, hpre, Bool.false_eq_true, if_false]
      simpa using hvod
  · intro st buf hpre hend
    simp only [IndexPlaylist, hpre, if_true]
    exact indexPlaylistTypeUpdate_endlist st.playlistType buf hend

/-- Witness for the amended C7 theorem at concrete playlists. -/
theorem playlistType_vod_absorbing_unless_event_witness :
    (IndexPlaylist { initialIndexState with playlistType := PlaylistType.vod }
        "#EXTM3U\n#EXTINF:2,\nf.ts\n".toList).playlistType = PlaylistType.vod ∧
    (IndexPlaylist initialIndexState
        "#EXTM3U\n#EXTINF:2,\nf.ts\n#EXT-X-ENDLIST\n".toList).playlistType
        = PlaylistType.vod := by
  constructor
  · exact playlistType_vod_absorbing_unless_event.1 _ _ rfl (by decide)
  · exact playlistType_vod_absorbing_unless_event.2 _ _ (by decide) (by decide)

/-- **C8.** A playlist buffer that does not begin with `#EXTM3U` is rejected:
the invalid-manifest failure event fires, the track duration is 0, and no
fragment, discontinuity or DRM-metadata index entries are built from it. -/
theorem invalid_manifest_rejected :
    ∀ (st : MediaPlaylistIndex) (buf : List Char),
      "#EXTM3U".toList.isPrefixOf buf = false →
      (IndexPlaylist st buf).sentInvalidManifestEvent = true ∧
      (IndexPlaylist st buf).mDuration = 0 ∧
      (IndexPlaylist st buf).index = [] ∧
      (IndexPlaylist st buf).mDiscontinuityIndex = [] ∧
      (IndexPlaylist st buf).mDrmMetaDataIndex = [] := by
  intro st buf h
  simp only [IndexPlaylist, h, Bool.false_eq_true, if_false]
  simp

/-- Witness for C8 on a concrete non-playlist buffer. -/
theorem invalid_manifest_rejected_witness :
    "#EXTM3U".toList.isPrefixOf "<html>not found</html>".toList = false ∧
    ((IndexPlaylist initialIndexState
        "<html>not found</html>".toList).sentInvalidManifestEvent = true ∧
      (IndexPlaylist initialIndexState "<html>not found</html>".toList).mDuration = 0 ∧
      (IndexPlaylist initialIndexState "<html>not found</html>".toList).index = [] ∧
      (IndexPlaylist initialIndexState
        "<html>not found</html>".toList).mDiscontinuityIndex = [] ∧
      (IndexPlaylist initialIndexState
        "<html>not found</html>".toList).mDrmMetaDataIndex = []) := by
  have h : "#EXTM3U".toList.isPrefixOf "<html>not found</html>".toList = false := by decide
  exact ⟨h, invalid_manifest_rejected initialIndexState _ h⟩

/-- **C10.** A refresh whose download returns no data restores the previous
playlist buffer and leaves the buffer, the index, the fragment cursor, the
walk position and the culled seconds exactly as they were. -/
theorem refresh_failure_preserves_track :
    ∀ (st : TrackRefreshState) (httpTimedOut : Bool),
      (RefreshPlaylist st none httpTimedOut).playlist = st.playlist ∧
      (RefreshPlaylist st none httpTimedOut).idx = st.idx ∧
      (RefreshPlaylist st none httpTimedOut).fragmentURI = st.fragmentURI ∧
      (RefreshPlaylist st none httpTimedOut).playlistPosition = st.playlistPosition ∧
      (RefreshPlaylist st none httpTimedOut).nextMediaSequenceNumber
        = st.nextMediaSequenceNumber ∧
      (RefreshPlaylist st none httpTimedOut).fragmentDurationSeconds
        = st.fragmentDurationSeconds ∧
      (RefreshPlaylist st none httpTimedOut).mCulledSeconds = st.mCulledSeconds := by
  intro st t
  simp only [RefreshPlaylist]
  split_ifs <;> simp

/-! ## Culled-seconds accounting across refreshes (C3) -/

/-- A track state as it stands before a refresh: two 5-second fragments
indexed from sequence number 0, the walk about to fetch sequence number 1. -/
def preRefreshState : TrackRefreshState :=
  { playlist := "#EXTM3U\n#EXT-X-MEDIA-SEQUENCE:0\n#EXTINF:5,\nf1.ts\n#EXTINF:5,\nf2.ts\n".toList,
    idx := { initialIndexState with index := [⟨5⟩, ⟨10⟩] },
    fragmentURI := some "f2.ts".toList, playlistPosition := 5,
    nextMediaSequenceNumber := 1, fragmentDurationSeconds := 5,
    mCulledSeconds := 0, manifestDLFailCount := 0 }

/-- **C3** (counterexample): a refresh whose re-downloaded playlist reports a
larger completion time at the common sequence number (here the first fragment
re-advertised with duration 9 instead of 5) makes `culled` negative and
`mCulledSeconds` decreases — nothing in the code clamps the difference. -/
theorem culled_seconds_can_decrease :
    (RefreshPlaylist preRefreshState
        (some "#EXTM3U\n#EXT-X-MEDIA-SEQUENCE:0\n#EXTINF:9,\nf1.ts\n#EXTINF:5,\nf2.ts\n".toList)
        false).mCulledSeconds < preRefreshState.mCulledSeconds := by
  simp +decide [RefreshPlaylist, GetCompletionTimeForFragment, IndexPlaylist,
    indexCoreLoop, collectFaxsCm, indexPlaylistTypeUpdate, declaredPlaylistType,
    strstrSuffix, strstrAfter, hasSubstring, aamp_atof, aamp_atoll, parseDigits,
    parseFracDigits, List.dropWhile, List.isPrefixOf, findMediaForSequenceNumberLoop,
    splitLines, splitLinesAux, preRefreshState, initialIndexState]
  norm_num

/-- **C3** (amended): `mCulledSeconds` never decreases across a refresh
provided the refreshed playlist's completion time at the common sequence
number does not exceed the previous one — the refresh adds exactly
`prev - new` to it; and a refresh whose download fails never decreases it. -/
theorem culled_seconds_monotone :
    (∀ (st : TrackRefreshState) (newPlaylist : List Char),
        GetCompletionTimeForFragment (IndexPlaylist st.idx newPlaylist)
            (st.nextMediaSequenceNumber - 1) ≤
          GetCompletionTimeForFragment st.idx (st.nextMediaSequenceNumber - 1) →
        st.mCulledSeconds ≤ (RefreshPlaylist st (some newPlaylist) false).mCulledSeconds) ∧
    (∀ (st : TrackRefreshState) (httpTimedOut : Bool),
        st.mCulledSeconds ≤ (RefreshPlaylist st none httpTimedOut).mCulledSeconds) := by
  constructor
  · intro st newPlaylist h
    simp only [RefreshPlaylist]
    split_ifs <;> simp <;> linarith
  · intro st t
    simp only [RefreshPlaylist]
    split_ifs <;> simp

/-- Witness for the amended C3 theorem: an ordinary culling refresh (the
first fragment dropped from the window) and a failed refresh. -/
theorem culled_seconds_monotone_witness :
    (GetCompletionTimeForFragment
        (IndexPlaylist preRefreshState.idx
          "#EXTM3U\n#EXT-X-MEDIA-SEQUENCE:1\n#EXTINF:5,\nf2.ts\n".toList)
        (preRefreshState.nextMediaSequenceNumber - 1) ≤
      GetCompletionTimeForFragment preRefreshState.idx
        (preRefreshState.nextMediaSequenceNumber - 1)) ∧
    preRefreshState.mCulledSeconds ≤
      (RefreshPlaylist preRefreshState
        (some "#EXTM3U\n#EXT-X-MEDIA-SEQUENCE:1\n#EXTINF:5,\nf2.ts\n".toList)
        false).mCulledSeconds ∧
    preRefreshState.mCulledSeconds ≤
      (RefreshPlaylist preRefreshState none false).mCulledSeconds := by
  have h : GetCompletionTimeForFragment
      (IndexPlaylist preRefreshState.idx
        "#EXTM3U\n#EXT-X-MEDIA-SEQUENCE:1\n#EXTINF:5,\nf2.ts\n".toList)
      (preRefreshState.nextMediaSequenceNumber - 1) ≤
      GetCompletionTimeForFragment preRefreshState.idx
        (preRefreshState.nextMediaSequenceNumber - 1) := by
    simp +decide [GetCompletionTimeForFragment, IndexPlaylist, indexCoreLoop,
      collectFaxsCm, indexPlaylistTypeUpdate, declaredPlaylistType, strstrSuffix,
      strstrAfter, hasSubstring, aamp_atof, aamp_atoll, parseDigits, parseFracDigits,
      List.dropWhile, List.isPrefixOf, preRefreshState, initialIndexState]
  exact ⟨h, culled_seconds_monotone.1 preRefreshState _ h,
    culled_seconds_monotone.2 preRefreshState false⟩

/-! ## Live-edge adjustment (`StreamAbstractionAAMP_HLS::Init`, C4) -/

/-- The per-track fields the live-adjust block reads and writes. -/
structure LiveAdjustTrack where
  enabled : Bool
  mDuration : ℚ
  playTargetOffset : ℚ
  playTarget : ℚ
deriving DecidableEq, Repr

/-- Result of the live-adjust block: both track states, the at-live-point
flag, and the seek position published afterwards. -/
structure LiveAdjustResult where
  video : LiveAdjustTrack
  audio : LiveAdjustTrack
  mIsAtLivePoint : Bool
  seekPosition : ℚ
deriving DecidableEq, Repr

/-- Video offset-to-live (fragmentcollector_hls.cpp:3376): the C locals are
`int`, so the `double` difference is truncated. -/
def offsetToLiveVideoOf (video : LiveAdjustTrack) (offsetFromLive : ℤ) : ℤ :=
  ctrunc (video.mDuration - offsetFromLive - video.playTargetOffset)

/-- Audio offset-to-live (fragmentcollector_hls.cpp:3377-3385): starts equal
to the video offset; when audio is enabled it is 0 unless the audio duration
leaves room, in which case it is the truncated audio difference. -/
def offsetToLiveAudioOf (video audio : LiveAdjustTrack) (offsetFromLive : ℤ) : ℤ :=
  if audio.enabled then
    if audio.mDuration > (offsetFromLive : ℚ) + audio.playTargetOffset then
      ctrunc (audio.mDuration - offsetFromLive - audio.playTargetOffset)
    else 0
  else offsetToLiveVideoOf video offsetFromLive

/-- The live-adjust block of `StreamAbstractionAAMP_HLS::Init`
(fragmentcollector_hls.cpp:3366-3406): when the video duration leaves room
past `offsetFromLive`, advance both enabled tracks' `playTarget` by the
minimum of the two offsets-to-live and set `mIsAtLivePoint` when that offset
is nonzero; finally publish the video `playTarget` as the seek position. -/
def liveAdjust (video audio : LiveAdjustTrack) (offsetFromLive : ℤ)
    (mIsAtLivePoint : Bool) : LiveAdjustResult :=
  if video.mDuration > (offsetFromLive : ℚ) + video.playTargetOffset then
    let offsetToLive :=
      min (offsetToLiveVideoOf video offsetFromLive)
        (offsetToLiveAudioOf video audio offsetFromLive)
    let video2 := { video with playTarget := video.playTarget + offsetToLive }
    let audio2 :=
      if audio.enabled then { audio with playTarget := audio.playTarget + offsetToLive }
      else audio
    { video := video2, audio := audio2,
      mIsAtLivePoint := if offsetToLive ≠ 0 then true else mIsAtLivePoint,
      seekPosition := video2.playTarget }
  else
    { video := video, audio := audio, mIsAtLivePoint := mIsAtLivePoint,
      seekPosition := video.playTarget }

/-- Helper: truncation of a nonnegative value is nonnegative. -/
theorem ctrunc_nonneg (x : ℚ) (h : 0 ≤ x) : 0 ≤ ctrunc x := by
  simp only [ctrunc, h, if_true]
  exact Int.floor_nonneg.mpr h

/-- Helper: truncation is the identity on integer values. -/
theorem ctrunc_intCast (n : ℤ) : ctrunc (n : ℚ) = n := by
  rcases le_or_lt 0 ((n : ℚ)) with h | h <;> simp [ctrunc, h.le]

/-- **C4.** With the video duration past `live_offset + video
play_target_offset` and audio enabled: both tracks advance by the same
amount, the minimum of the two offsets-to-live; the at-live-point flag ends
up set iff that offset is positive; and on whole-second inputs each
offset-to-live equals `duration - live_offset - play_target_offset`. -/
theorem live_adjust_min_offset (video audio : LiveAdjustTrack) (offsetFromLive : ℤ)
    (hdur : video.mDuration > (offsetFromLive : ℚ) + video.playTargetOffset)
    (haud : audio.enabled = true) :
    (liveAdjust video audio offsetFromLive false).video.playTarget
      = video.playTarget + (min (offsetToLiveVideoOf video offsetFromLive)
          (offsetToLiveAudioOf video audio offsetFromLive) : ℤ) ∧
    (liveAdjust video audio offsetFromLive false).audio.playTarget
      = audio.playTarget + (min (offsetToLiveVideoOf video offsetFromLive)
          (offsetToLiveAudioOf video audio offsetFromLive) : ℤ) ∧
    ((liveAdjust video audio offsetFromLive false).mIsAtLivePoint = true ↔
      0 < min (offsetToLiveVideoOf video offsetFromLive)
        (offsetToLiveAudioOf video audio offsetFromLive)) ∧
    (∀ n : ℤ, video.mDuration - offsetFromLive - video.playTargetOffset = (n : ℚ) →
      offsetToLiveVideoOf video offsetFromLive = n) ∧
    (∀ n : ℤ, audio.mDuration > (offsetFromLive : ℚ) + audio.playTargetOffset →
      audio.mDuration - offsetFromLive - audio.playTargetOffset = (n : ℚ) →
      offsetToLiveAudioOf video audio offsetFromLive = n) := by
  have hv0 : 0 ≤ offsetToLiveVideoOf video offsetFromLive := by
    apply ctrunc_nonneg
    linarith
  have ha0 : 0 ≤ offsetToLiveAudioOf video audio offsetFromLive := by
    unfold offsetToLiveAudioOf
    split_ifs <;>
      first
        | exact hv0
        | exact le_refl 0
        | (apply ctrunc_nonneg; linarith)
  have hmin0 : 0 ≤ min (offsetToLiveVideoOf video offsetFromLive)
      (offsetToLiveAudioOf video audio offsetFromLive) := le_min hv0 ha0
  refine ⟨?_, ?_, ?_, ?_, ?_⟩
  · simp [liveAdjust, hdur, haud]
  · simp [liveAdjust, hdur, haud]
  · simp only [liveAdjust, hdur, if_true]
    constructor
    · intro h
      by_cases hz : min (offsetToLiveVideoOf video offsetFromLive)
          (offsetToLiveAudioOf video audio offsetFromLive) = 0
      · simp [hz] at h
      · omega
    · intro h
      have : min (offsetToLiveVideoOf video offsetFromLive)
          (offsetToLiveAudioOf video audio offsetFromLive) ≠ 0 := by omega
      simp [this]
  · intro n hn
    unfold offsetToLiveVideoOf
    rw [hn, ctrunc_intCast]
  · intro n hroom hn
    unfold offsetToLiveAudioOf
    simp only [haud, if_true, hroom, hn, ctrunc_intCast]

/-- Witness for C4 at the spec's scenario: duration 120 s, live offset 10 s,
both play-target offsets 0 — both tracks end at 110 and the at-live-point
flag is set. -/
theorem live_adjust_min_offset_witness :
    (liveAdjust ⟨true, 120, 0, 0⟩ ⟨true, 120, 0, 0⟩ 10 false).video.playTarget = 110 ∧
    (liveAdjust ⟨true, 120, 0, 0⟩ ⟨true, 120, 0, 0⟩ 10 false).audio.playTarget = 110 ∧
    (liveAdjust ⟨true, 120, 0, 0⟩ ⟨true, 120, 0, 0⟩ 10 false).mIsAtLivePoint = true := by
  have h := live_adjust_min_offset ⟨true, 120, 0, 0⟩ ⟨true, 120, 0, 0⟩ 10
    (by norm_num) rfl
  have hoff : offsetToLiveVideoOf ⟨true, 120, 0, 0⟩ 10 = 110 := by
    have := h.2.2.2.1 110 (by norm_num)
    exact this
  have hoffa : offsetToLiveAudioOf ⟨true, 120, 0, 0⟩ ⟨true, 120, 0, 0⟩ 10 = 110 := by
    have := h.2.2.2.2 110 (by norm_num) (by norm_num)
    exact this
  refine ⟨?_, ?_, ?_⟩
  · rw [h.1, hoff, hoffa]
    norm_num
  · rw [h.2.1, hoff, hoffa]
    norm_num
  · rw [h.2.2.1, hoff, hoffa]
    norm_num

/-! ## Initial A/V synchronization by sequence number
(`StreamAbstractionAAMP_HLS::SyncTracks`, C5) -/

/-- Constant `#define MAX_SEQ_NUMBER_LAG_COUNT 50`. -/
def MAX_SEQ_NUMBER_LAG_COUNT : ℤ := 50

/-- Constant `#define MAX_SEQ_NUMBER_DIFF_FOR_SEQ_NUM_BASED_SYNC 2`. -/
def MAX_SEQ_NUMBER_DIFF_FOR_SEQ_NUM_BASED_SYNC : ℤ := 2

/-- The catch-up loop of `SyncTracks` (fragmentcollector_hls.cpp:2682-2695):
each iteration adds the lagging track's current `fragmentDurationSeconds` to
its `playTarget` and `playTargetOffset`, then walks it one fragment forward
(which may change `fragmentDurationSeconds`); `durations k` is that value in
force at iteration `k`. -/
def syncLoopAdvance (durations : ℕ → ℚ) (playTarget playTargetOffset : ℚ) :
    ℕ → ℚ × ℚ
  | 0 => (playTarget, playTargetOffset)
  | n + 1 =>
    syncLoopAdvance (fun k => durations (k + 1)) (playTarget + durations 0)
      (playTargetOffset + durations 0) n

/-- Outcome of the sequence-number block of `SyncTracks`. -/
structure SeqNumSyncResult where
  syncedUsingSeqNum : Bool
  loopIterations : ℕ
  laggingPlayTarget : ℚ
  laggingPlayTargetOffset : ℚ
deriving DecidableEq, Repr

/-- The sequence-number difference between the tracks: the source picks the
lagging track and takes the positive difference. -/
def seqDiff (audioSeq videoSeq : ℤ) : ℤ :=
  if audioSeq > videoSeq then audioSeq - videoSeq else videoSeq - audioSeq

/-- The sequence-number synchronization block of
`StreamAbstractionAAMP_HLS::SyncTracks` (fragmentcollector_hls.cpp:2647-2709):
with no lag the tracks are already in sync; with start times available and a
lag above `MAX_SEQ_NUMBER_DIFF_FOR_SEQ_NUM_BASED_SYNC` the code falls back to
start-time sync; a lag up to `MAX_SEQ_NUMBER_LAG_COUNT` is caught up one
fragment at a time; beyond that the block gives up. -/
def syncTracksSeqNum (startTimeAvailable : Bool) (audioSeq videoSeq : ℤ)
    (laggingDurations : ℕ → ℚ) (laggingPlayTarget laggingPlayTargetOffset : ℚ) :
    SeqNumSyncResult :=
  let diff := seqDiff audioSeq videoSeq
  if audioSeq = videoSeq then
    { syncedUsingSeqNum := true, loopIterations := 0,
      laggingPlayTarget := laggingPlayTarget,
      laggingPlayTargetOffset := laggingPlayTargetOffset }
  else if startTimeAvailable ∧ diff > MAX_SEQ_NUMBER_DIFF_FOR_SEQ_NUM_BASED_SYNC then
    { syncedUsingSeqNum := false, loopIterations := 0,
      laggingPlayTarget := laggingPlayTarget,
      laggingPlayTargetOffset := laggingPlayTargetOffset }
  else if diff ≤ MAX_SEQ_NUMBER_LAG_COUNT ∧ diff > 0 then
    let r := syncLoopAdvance laggingDurations laggingPlayTarget
      laggingPlayTargetOffset diff.toNat
    { syncedUsingSeqNum := true, loopIterations := diff.toNat,
      laggingPlayTarget := r.1, laggingPlayTargetOffset := r.2 }
  else
    { syncedUsingSeqNum := false, loopIterations := 0,
      laggingPlayTarget := laggingPlayTarget,
      laggingPlayTargetOffset := laggingPlayTargetOffset }

/-- Helper: the catch-up loop adds the first `n` fragment durations. -/
theorem syncLoopAdvance_eq (durations : ℕ → ℚ) (pt pto : ℚ) (n : ℕ) :
    syncLoopAdvance durations pt pto n =
      (pt + ∑ k ∈ Finset.range n, durations k,
       pto + ∑ k ∈ Finset.range n, durations k) := by
  induction n generalizing durations pt pto with
  | zero => simp [syncLoopAdvance]
  | succ m ih =>
    rw [syncLoopAdvance, ih]
    have hsum : ∀ x : ℚ, x + durations 0 + ∑ k ∈ Finset.range m, durations (k + 1)
        = x + ∑ k ∈ Finset.range (m + 1), durations k := by
      intro x
      rw [Finset.sum_range_succ']
      ring
    rw [hsum, hsum]

/-- **C5.** In the sequence-number synchronization block: the catch-up loop
never runs more than `MAX_SEQ_NUMBER_LAG_COUNT = 50` iterations; a difference
within `2` always syncs by sequence number; when the block is attempted (no
start-time fallback) a positive difference within `50` runs exactly `diff`
iterations, each adding the current fragment duration to the lagging track's
`playTarget` and `playTargetOffset`; and a difference beyond `50` leaves the
block without attempting sequence-number sync. -/
theorem sync_tracks_seq_num_bounds (startTimeAvailable : Bool)
    (audioSeq videoSeq : ℤ) (durations : ℕ → ℚ) (pt pto : ℚ) :
    (syncTracksSeqNum startTimeAvailable audioSeq videoSeq durations pt pto).loopIterations ≤ 50 ∧
    (seqDiff audioSeq videoSeq ≤ 2 →
      (syncTracksSeqNum startTimeAvailable audioSeq videoSeq durations pt pto).syncedUsingSeqNum
        = true) ∧
    (¬(startTimeAvailable = true ∧ 2 < seqDiff audioSeq videoSeq) →
      0 < seqDiff audioSeq videoSeq → seqDiff audioSeq videoSeq ≤ 50 →
      (syncTracksSeqNum startTimeAvailable audioSeq videoSeq durations pt pto).syncedUsingSeqNum
          = true ∧
      (syncTracksSeqNum startTimeAvailable audioSeq videoSeq durations pt pto).loopIterations
          = (seqDiff audioSeq videoSeq).toNat ∧
      (syncTracksSeqNum startTimeAvailable audioSeq videoSeq durations pt pto).laggingPlayTarget
          = pt + ∑ k ∈ Finset.range (seqDiff audioSeq videoSeq).toNat, durations k ∧
      (syncTracksSeqNum startTimeAvailable audioSeq videoSeq durations pt
          pto).laggingPlayTargetOffset
          = pto + ∑ k ∈ Finset.range (seqDiff audioSeq videoSeq).toNat, durations k) ∧
    (50 < seqDiff audioSeq videoSeq →
      (syncTracksSeqNum startTimeAvailable audioSeq videoSeq durations pt pto).syncedUsingSeqNum
          = false ∧
      (syncTracksSeqNum startTimeAvailable audioSeq videoSeq durations pt pto).loopIterations
          = 0) := by
  have hdiff0 : 0 ≤ seqDiff audioSeq videoSeq := by
    unfold seqDiff
    split_ifs <;> omega
  have hne : audioSeq ≠ videoSeq → 0 < seqDiff audioSeq videoSeq := by
    intro h
    unfold seqDiff
    split_ifs <;> omega
  refine ⟨?_, ?_, ?_, ?_⟩
  · unfold syncTracksSeqNum
    simp only [MAX_SEQ_NUMBER_LAG_COUNT, MAX_SEQ_NUMBER_DIFF_FOR_SEQ_NUM_BASED_SYNC]
    split_ifs with h1 h2 h3 <;> simp
    omega
  · intro h2
    unfold syncTracksSeqNum
    simp only [MAX_SEQ_NUMBER_LAG_COUNT, MAX_SEQ_NUMBER_DIFF_FOR_SEQ_NUM_BASED_SYNC]
    by_cases heq : audioSeq = videoSeq
    · simp [heq]
    · have hpos := hne heq
      have hcond : ¬(startTimeAvailable = true ∧
          seqDiff audioSeq videoSeq > MAX_SEQ_NUMBER_DIFF_FOR_SEQ_NUM_BASED_SYNC) := by
        simp only [MAX_SEQ_NUMBER_DIFF_FOR_SEQ_NUM_BASED_SYNC]
        rintro ⟨-, hgt⟩
        omega
      simp only [MAX_SEQ_NUMBER_DIFF_FOR_SEQ_NUM_BASED_SYNC] at hcond
      have hle : seqDiff audioSeq videoSeq ≤ MAX_SEQ_NUMBER_LAG_COUNT ∧
          seqDiff audioSeq videoSeq > 0 := by
        simp only [MAX_SEQ_NUMBER_LAG_COUNT]
        omega
      simp only [MAX_SEQ_NUMBER_LAG_COUNT] at hle
      simp [heq, hcond, hle]
  · intro hnofb hpos hle
    unfold syncTracksSeqNum
    have heq : ¬audioSeq = videoSeq := by
      intro h
      rw [h] at hpos
      unfold seqDiff at hpos
      simp at hpos
    have hcond : ¬(startTimeAvailable = true ∧
        seqDiff audioSeq videoSeq > MAX_SEQ_NUMBER_DIFF_FOR_SEQ_NUM_BASED_SYNC) := by
      simp only [MAX_SEQ_NUMBER_DIFF_FOR_SEQ_NUM_BASED_SYNC]
      rintro ⟨hsta, hgt⟩
      exact hnofb ⟨hsta, hgt⟩
    have hle2 : seqDiff audioSeq videoSeq ≤ MAX_SEQ_NUMBER_LAG_COUNT ∧
        seqDiff audioSeq videoSeq > 0 := by
      simp only [MAX_SEQ_NUMBER_LAG_COUNT]
      omega
    simp only [heq, hcond, hle2, if_false, if_true, and_self]
    rw [syncLoopAdvance_eq]
    simp
  · intro hgt
    unfold syncTracksSeqNum
    have heq : ¬audioSeq = videoSeq := by
      intro h
      rw [h] at hgt
      unfold seqDiff at hgt
      simp at hgt
    by_cases hsta : startTimeAvailable = true ∧
        seqDiff audioSeq videoSeq > MAX_SEQ_NUMBER_DIFF_FOR_SEQ_NUM_BASED_SYNC
    · simp [heq, hsta]
    · have hle2 : ¬(seqDiff audioSeq videoSeq ≤ MAX_SEQ_NUMBER_LAG_COUNT ∧
          seqDiff audioSeq videoSeq > 0) := by
        simp only [MAX_SEQ_NUMBER_LAG_COUNT]
        omega
      simp [heq, hsta, hle2]

/-- Witness for C5: audio three fragments ahead (sequence numbers 10 vs 7),
no start times, constant 2-second fragments: three loop iterations advance
the lagging video track by 6 seconds. -/
theorem sync_tracks_seq_num_bounds_witness :
    (¬(false = true ∧ 2 < seqDiff 10 7) ∧ 0 < seqDiff 10 7 ∧ seqDiff 10 7 ≤ 50) ∧
    (syncTracksSeqNum false 10 7 (fun _ => 2) 0 0).syncedUsingSeqNum = true ∧
    (syncTracksSeqNum false 10 7 (fun _ => 2) 0 0).loopIterations = 3 ∧
    (syncTracksSeqNum false 10 7 (fun _ => 2) 0 0).laggingPlayTarget = 6 := by
  have h1 : ¬(false = true ∧ 2 < seqDiff 10 7) := by simp
  have h2 : 0 < seqDiff 10 7 := by decide
  have h3 : seqDiff 10 7 ≤ 50 := by decide
  have h := (sync_tracks_seq_num_bounds false 10 7 (fun _ => 2) 0 0).2.2.1 h1 h2 h3
  have hd : (seqDiff 10 7).toNat = 3 := by decide
  refine ⟨⟨h1, h2, h3⟩, h.1, ?_, ?_⟩
  · rw [h.2.1, hd]
  · rw [h.2.2.1, hd]
    rw [show (∑ k ∈ Finset.range 3, (fun (_ : ℕ) => (2 : ℚ)) k) = 6 by
      simp [Finset.sum_range_succ]
      norm_num]
    norm_num

/-! ## Attribute-list parser (`ParseAttrList`, C9)

The parser works on a NUL-terminated C string.  Its `=`-scan
(fragmentcollector_hls.cpp:507-513) checks only for `'='`, never for the
terminator, so a field with no `'='` walks past the end of the string; that
overread is modelled by `findEqualSplit` returning `none`. -/

/-- The attribute-name scan `while (*delimEqual != '=') delimEqual++;`:
splits at the first `'='`; `none` when the scan exhausts the string, i.e.
runs past the NUL terminator into adjacent memory. -/
def findEqualSplit : List Char → Option (List Char × List Char)
  | [] => none
  | c :: t =>
    if c = '=' then some ([], t)
    else (findEqualSplit t).map (fun p => (c :: p.1, p.2))

/-- The value scan of `ParseAttrList` (fragmentcollector_hls.cpp:514-541):
consume until the NUL, a closing double quote (consumed, quotes kept in the
span), or an unquoted comma (left in place); commas inside quotes are
consumed.  Returns the value span and the rest at `fin`. -/
def scanAttrValue : List Char → Bool → List Char × List Char
  | [], _ => ([], [])
  | c :: t, inQuote =>
    if c = '"' then
      if inQuote then (['"'], t)
      else
        let r := scanAttrValue t true
        ('"' :: r.1, r.2)
    else if c = ',' ∧ ¬inQuote then ([], c :: t)
    else
      let r := scanAttrValue t inQuote
      (c :: r.1, r.2)

/-- The field loop of `ParseAttrList` (fragmentcollector_hls.cpp:499-549):
strip spaces, scan for `'='`, scan the value, report `(name, value)` to the
callback, skip a trailing comma, repeat while characters remain.  `none`
when any field's `=`-scan overreads the string.  `fuel` bounds the loop by
the string length plus one; each iteration consumes at least the `'='`. -/
def parseAttrListLoop (fuel : ℕ) (s : List Char) :
    Option (List (List Char × List Char)) :=
  match fuel with
  | 0 => none
  | fuel + 1 =>
    match s with
    | [] => some []
    | _ =>
      let s1 := s.dropWhile (fun c => c == ' ')
      match findEqualSplit s1 with
      | none => none
      | some nameAndRest =>
        let vr := scanAttrValue nameAndRest.2 false
        let rest :=
          match vr.2 with
          | c :: t => if c = ',' then t else c :: t
          | [] => []
        (parseAttrListLoop fuel rest).map (fun acc => (nameAndRest.1, vr.1) :: acc)

/-- Function `ParseAttrList` over a NUL-terminated attribute list: the list
of `(name, value-span)` pairs handed to the callback, or `none` when the
parser reads past the string's terminator. -/
def ParseAttrList (s : List Char) : Option (List (List Char × List Char)) :=
  parseAttrListLoop (s.length + 1) s

/-- Function `GetAttributeValueString` (fragmentcollector_hls.cpp:212-233):
strip the surrounding double quotes from a quoted value span; other values
are returned unchanged. -/
def GetAttributeValueString (v : List Char) : List Char :=
  match v with
  | c :: t => if c = '"' then t.dropLast else c :: t
  | [] => []

/-- **C9** (the claim fails on the code): an attribute list consisting of a
field with no `'='` — for example the three characters `FOO`, or a dangling
space after a trailing comma — drives the `=`-scan past the string's NUL
terminator instead of skipping the malformed field. -/
theorem parse_attr_list_overread :
    ParseAttrList "FOO".toList = none ∧
    ParseAttrList "METHOD=NONE, ".toList = none := by
  constructor
  · decide
  · decide

/-- Well-formed attribute lists do split as the spec describes: fields at
unquoted commas, name/value at the first `'='`, commas kept inside quotes,
and the accessor strips the surrounding quotes. -/
theorem parse_attr_list_well_formed :
    ParseAttrList "METHOD=AES-128,URI=\"https://a/b,c\",IV=0xAB".toList =
      some [("METHOD".toList, "AES-128".toList),
            ("URI".toList, "\"https://a/b,c\"".toList),
            ("IV".toList, "0xAB".toList)] ∧
    GetAttributeValueString "\"https://a/b,c\"".toList = "https://a/b,c".toList := by
  constructor
  · decide
  · decide

/-! ## Trick-play fragment selection (`TrackState::GetFragmentUriFromIndex`,
`FetchFragmentHelper`, `FetchFragment`; C6) -/

/-- Constant `AAMP_NORMAL_PLAY_RATE` (normal playback rate 1). -/
def AAMP_NORMAL_PLAY_RATE : ℚ := 1

/-- The forward search of `GetFragmentUriFromIndex`
(fragmentcollector_hls.cpp:775-788): from `i` upward, the first node whose
completion time has reached `playTarget`. -/
def searchForwardFrom (index : List IndexNode) (playTarget : ℚ) (i : ℕ) : Option ℕ :=
  if h : i < index.length then
    if playTarget ≤ (index.get ⟨i, h⟩).completionTimeSecondsFromStart then some i
    else searchForwardFrom index playTarget (i + 1)
  else none
termination_by index.length - i

/-- The backward search of `GetFragmentUriFromIndex`
(fragmentcollector_hls.cpp:796-810): from `i` downward, the first node whose
completion time is at or before `playTarget` (the C loop trusts the caller
that `i` is in range; an out-of-range start yields no node here). -/
def searchBackwardFrom (index : List IndexNode) (playTarget : ℚ) : ℕ → Option ℕ
  | 0 =>
    if h : 0 < index.length then
      if (index.get ⟨0, h⟩).completionTimeSecondsFromStart ≤ playTarget then some 0
      else none
    else none
  | i + 1 =>
    if h : i + 1 < index.length then
      if (index.get ⟨i + 1, h⟩).completionTimeSecondsFromStart ≤ playTarget then some (i + 1)
      else searchBackwardFrom index playTarget i
    else none

/-- Function `TrackState::GetFragmentUriFromIndex`
(fragmentcollector_hls.cpp:753-887) reduced to the fragment-index walk: for
positive rate, refuse when live and `playTarget` is past the seek window end,
then search forward from `currentIdx` (or 0 when `-1`); for negative rate
search backward from `currentIdx` (or the last node when `-1`).  In the
source an empty index dereferences `index[-1]`; here it finds no node.  The
byte-range / duration / encryption bookkeeping on the found node is not read
by any checked property and is elided. -/
def GetFragmentUriFromIndex (rate : ℚ) (index : List IndexNode) (currentIdx : ℤ)
    (playTarget : ℚ) (isLive : Bool) (mLiveOffset : ℚ) : Option ℕ :=
  if 0 < rate then
    match index.getLast? with
    | none => none
    | some lastIndexNode =>
      if isLive ∧ lastIndexNode.completionTimeSecondsFromStart - mLiveOffset < playTarget then
        none
      else
        searchForwardFrom index playTarget (if currentIdx = -1 then 0 else currentIdx.toNat)
  else
    searchBackwardFrom index playTarget
      (if currentIdx = -1 then index.length - 1 else currentIdx.toNat)

/-- The trick-play branch of `TrackState::FetchFragmentHelper`
(fragmentcollector_hls.cpp:1273-1303): step `playTarget` by
`rate / mTrickPlayFPS`; rewind clamps at 0 and flags EOS at the beginning,
fast-forward flags EOS when no fragment was found but still steps.  Returns
the new `playTarget` and `eosReached`. -/
def fetchFragmentHelperTrickplay (rate mTrickPlayFPS : ℚ) (uriFound : Bool)
    (playTarget : ℚ) (eosReached : Bool) : ℚ × Bool :=
  let delta := rate / mTrickPlayFPS
  if rate < 0 then
    if ¬uriFound ∨ playTarget = 0 then (playTarget, true)
    else if playTarget > -delta then (playTarget + delta, eosReached)
    else (0, eosReached)
  else
    (playTarget + delta, if ¬uriFound then true else eosReached)

/-- The metadata stamped on the staged fragment. -/
structure CachedFragmentMeta where
  position : ℚ
  duration : ℚ
  discontinuity : Bool
deriving DecidableEq, Repr

/-- The staging step of `TrackState::FetchFragment`
(fragmentcollector_hls.cpp:1537-1560): at normal rate the fragment keeps the
walk's discontinuity flag and its position backs up by the fragment duration;
at any other rate the position backs up by the trick-play delta and
discontinuity is forced `true`; in trick-play mode the duration is scaled by
`rate / mTrickPlayFPS` and truncated to an int. -/
def cachedFragmentMetaOf (rate mTrickPlayFPS : ℚ) (trickplayMode : Bool)
    (playTarget playTargetOffset fragmentDurationSeconds : ℚ)
    (discontinuity : Bool) : CachedFragmentMeta :=
  let position0 := playTarget - playTargetOffset
  let pd : ℚ × Bool :=
    if rate = AAMP_NORMAL_PLAY_RATE then
      (position0 - fragmentDurationSeconds, discontinuity)
    else
      (position0 - rate / mTrickPlayFPS, true)
  let duration :=
    if trickplayMode ∧ rate ≠ 0 then
      ((ctrunc (fragmentDurationSeconds * rate / mTrickPlayFPS) : ℤ) : ℚ)
    else fragmentDurationSeconds
  ⟨pd.1, duration, pd.2⟩

/-- Helper: what a successful forward search returns is the first node at or
past `playTarget`, searching from `start`. -/
theorem searchForwardFrom_spec (index : List IndexNode) (pt : ℚ) :
    ∀ (start i : ℕ), searchForwardFrom index pt start = some i →
      start ≤ i ∧ ∃ h : i < index.length,
        pt ≤ (index.get ⟨i, h⟩).completionTimeSecondsFromStart ∧
        ∀ j (hj : j < index.length), start ≤ j → j < i →
          (index.get ⟨j, hj⟩).completionTimeSecondsFromStart < pt := by
  have H : ∀ (n start i : ℕ), index.length - start ≤ n →
      searchForwardFrom index pt start = some i →
      start ≤ i ∧ ∃ h : i < index.length,
        pt ≤ (index.get ⟨i, h⟩).completionTimeSecondsFromStart ∧
        ∀ j (hj : j < index.length), start ≤ j → j < i →
          (index.get ⟨j, hj⟩).completionTimeSecondsFromStart < pt := by
    intro n
    induction n with
    | zero =>
      intro start i hn hs
      rw [searchForwardFrom] at hs
      have hge : ¬ start < index.length := by omega
      simp [hge] at hs
    | succ m ih =>
      intro start i hn hs
      rw [searchForwardFrom] at hs
      by_cases hlt : start < index.length
      · simp only [hlt, dif_pos] at hs
        by_cases hhit : pt ≤ (index.get ⟨start, hlt⟩).completionTimeSecondsFromStart
        · simp only [hhit, if_pos, Option.some.injEq] at hs
          subst hs
          exact ⟨le_refl _, hlt, hhit, fun j hj h1 h2 => absurd (lt_of_le_of_lt h1 h2)
            (lt_irrefl start)⟩
        · simp only [hhit, if_neg, if_false] at hs
          obtain ⟨h1, h2, h3, h4⟩ := ih (start + 1) i (by omega) hs
          refine ⟨by omega, h2, h3, ?_⟩
          intro j hj hj1 hj2
          rcases Nat.eq_or_lt_of_le hj1 with heq | hlt2
          · subst heq
            exact lt_of_not_le hhit
          · exact h4 j hj hlt2 hj2
      · simp [hlt] at hs
  intro start i hs
  exact H (index.length - start) start i (le_refl _) hs

/-- Helper: what a successful backward search returns is the first node at or
before `playTarget`, searching down from `start`. -/
theorem searchBackwardFrom_spec (index : List IndexNode) (pt : ℚ) :
    ∀ (start i : ℕ), searchBackwardFrom index pt start = some i →
      i ≤ start ∧ ∃ h : i < index.length,
        (index.get ⟨i, h⟩).completionTimeSecondsFromStart ≤ pt ∧
        ∀ j (hj : j < index.length), i < j → j ≤ start →
          pt < (index.get ⟨j, hj⟩).completionTimeSecondsFromStart := by
  intro start
  induction start with
  | zero =>
    intro i hs
    rw [searchBackwardFrom] at hs
    by_cases hlt : 0 < index.length
    · simp only [hlt, dif_pos] at hs
      by_cases hhit : (index.get ⟨0, hlt⟩).completionTimeSecondsFromStart ≤ pt
      · simp only [hhit, if_pos, Option.some.injEq] at hs
        subst hs
        exact ⟨le_refl _, hlt, hhit, fun j hj h1 h2 => by omega⟩
      · rw [if_neg hhit] at hs
        simp at hs
    · simp [hlt] at hs
  | succ m ih =>
    intro i hs
    rw [searchBackwardFrom] at hs
    by_cases hlt : m + 1 < index.length
    · simp only [hlt, dif_pos] at hs
      by_cases hhit : (index.get ⟨m + 1, hlt⟩).completionTimeSecondsFromStart ≤ pt
      · simp only [hhit, if_pos, Option.some.injEq] at hs
        subst hs
        exact ⟨le_refl _, hlt, hhit, fun j hj h1 h2 => by omega⟩
      · simp only [hhit, if_neg, if_false] at hs
        obtain ⟨h1, h2, h3, h4⟩ := ih i hs
        refine ⟨by omega, h2, h3, ?_⟩
        intro j hj hj1 hj2
        rcases Nat.eq_or_lt_of_le hj2 with heq | hlt2
        · subst heq
          exact lt_of_not_le hhit
        · exact h4 j hj hj1 (by omega)
    · simp [hlt] at hs

/-- **C6.** Trick-play fetches: for positive rate a found node is the first
one (from the cursor onward) whose completion time has reached `playTarget`,
for negative rate the first one backward at or before it; each fetch steps
`playTarget` by `rate / trick_play_fps` (1.0 s per fetch at rate 4 with FPS
4); and every fragment staged at non-normal rate carries
`discontinuity = true`. -/
theorem trickplay_walk_step_discontinuity :
    (∀ (rate : ℚ) (index : List IndexNode) (currentIdx : ℤ) (pt : ℚ)
        (isLive : Bool) (off : ℚ) (i : ℕ),
      0 < rate →
      GetFragmentUriFromIndex rate index currentIdx pt isLive off = some i →
      (if currentIdx = -1 then 0 else currentIdx.toNat) ≤ i ∧
      ∃ h : i < index.length,
        pt ≤ (index.get ⟨i, h⟩).completionTimeSecondsFromStart ∧
        ∀ j (hj : j < index.length),
          (if currentIdx = -1 then 0 else currentIdx.toNat) ≤ j → j < i →
          (index.get ⟨j, hj⟩).completionTimeSecondsFromStart < pt) ∧
    (∀ (rate : ℚ) (index : List IndexNode) (currentIdx : ℤ) (pt : ℚ)
        (isLive : Bool) (off : ℚ) (i : ℕ),
      rate < 0 →
      GetFragmentUriFromIndex rate index currentIdx pt isLive off = some i →
      i ≤ (if currentIdx = -1 then index.length - 1 else currentIdx.toNat) ∧
      ∃ h : i < index.length,
        (index.get ⟨i, h⟩).completionTimeSecondsFromStart ≤ pt ∧
        ∀ j (hj : j < index.length), i < j →
          j ≤ (if currentIdx = -1 then index.length - 1 else currentIdx.toNat) →
          pt < (index.get ⟨j, hj⟩).completionTimeSecondsFromStart) ∧
    (∀ (rate fps : ℚ) (found : Bool) (pt : ℚ) (eos : Bool),
      0 < rate →
      (fetchFragmentHelperTrickplay rate fps found pt eos).1 = pt + rate / fps) ∧
    (∀ (found : Bool) (pt : ℚ) (eos : Bool),
      (fetchFragmentHelperTrickplay 4 4 found pt eos).1 = pt + 1) ∧
    (∀ (rate fps : ℚ) (tm : Bool) (pt pto fd : ℚ) (disc : Bool),
      rate ≠ AAMP_NORMAL_PLAY_RATE →
      (cachedFragmentMetaOf rate fps tm pt pto fd disc).discontinuity = true) := by
  refine ⟨?_, ?_, ?_, ?_, ?_⟩
  · intro rate index currentIdx pt isLive off i hrate hs
    unfold GetFragmentUriFromIndex at hs
    simp only [hrate, if_pos] at hs
    cases hlast : index.getLast? with
    | none => rw [hlast] at hs; exact absurd hs (by simp)
    | some lastIndexNode =>
      rw [hlast] at hs
      by_cases hwin : isLive = true ∧
          lastIndexNode.completionTimeSecondsFromStart - off < pt
      · simp [hwin] at hs
      · simp only [hwin, if_neg, if_false] at hs
        exact searchForwardFrom_spec index pt _ i hs
  · intro rate index currentIdx pt isLive off i hrate hs
    unfold GetFragmentUriFromIndex at hs
    have hnp : ¬ 0 < rate := by linarith
    simp only [hnp, if_neg, if_false] at hs
    exact searchBackwardFrom_spec index pt _ i hs
  · intro rate fps found pt eos hrate
    unfold fetchFragmentHelperTrickplay
    have hnn : ¬ rate < 0 := by linarith
    simp [hnn]
  · intro found pt eos
    unfold fetchFragmentHelperTrickplay
    norm_num
  · intro rate fps tm pt pto fd disc hrate
    unfold cachedFragmentMetaOf
    simp [hrate]

/-- Witness for C6 at spec scenario 5: I-frame index with completion times
2, 4, 6; `play_target = 3` at rate 4, trick-play FPS 4: the walk picks node
1 (completion 4), the fetch step advances `play_target` to 4, and the staged
fragment carries `discontinuity = true`. -/
theorem trickplay_walk_step_discontinuity_witness :
    (GetFragmentUriFromIndex 4 [⟨2⟩, ⟨4⟩, ⟨6⟩] (-1) 3 false 0 = some 1 ∧
      (0 : ℚ) < 4 ∧
      1 < ([⟨2⟩, ⟨4⟩, ⟨6⟩] : List IndexNode).length) ∧
    (3 : ℚ) ≤ (([⟨2⟩, ⟨4⟩, ⟨6⟩] : List IndexNode).get
        ⟨1, by norm_num⟩).completionTimeSecondsFromStart ∧
    (fetchFragmentHelperTrickplay 4 4 true 3 false).1 = 3 + 1 ∧
    (cachedFragmentMetaOf 4 4 true 4 0 2 false).discontinuity = true := by
  have hs : GetFragmentUriFromIndex 4 [⟨2⟩, ⟨4⟩, ⟨6⟩] (-1) 3 false 0 = some 1 := by
    unfold GetFragmentUriFromIndex
    norm_num [List.getLast?]
    rw [searchForwardFrom]
    norm_num
    rw [searchForwardFrom]
    norm_num
  have h := trickplay_walk_step_discontinuity
  have h1 := h.1 4 [⟨2⟩, ⟨4⟩, ⟨6⟩] (-1) 3 false 0 1 (by norm_num) hs
  refine ⟨⟨hs, by norm_num, by norm_num⟩, ?_, ?_, ?_⟩
  · obtain ⟨-, hlen, hsel, -⟩ := h1
    exact hsel
  · exact h.2.2.2.1 true 3 false
  · exact h.2.2.2.2 4 4 true 4 0 2 false (by norm_num [AAMP_NORMAL_PLAY_RATE])

/-! ## Discontinuity matching across tracks
(`TrackState::HasDiscontinuityAroundPosition` and the discontinuity block of
`TrackState::GetNextFragmentUriFromPlaylist`; C1)

`ParseTimeFromProgramDateTime` (sscanf + mktime, wall-clock calendar
arithmetic) is kept abstract as a parameter `parsePDT` mapping the raw tag
text to seconds, `none` on parse failure. -/

/-- Constant `#define DISCONTINUITY_DISCARD_TOLERANCE_SECONDS 30`. -/
def DISCONTINUITY_DISCARD_TOLERANCE_SECONDS : ℚ := 30

/-- Constant `#define PLAYLIST_TIME_DIFF_THRESHOLD_SECONDS (0.1f)`. -/
def PLAYLIST_TIME_DIFF_THRESHOLD_SECONDS : ℚ := 1 / 10

/-- Stand-in for `DBL_MAX`, the initial value of
`diffBetweenDiscontinuities`; inside the loop it is tracked as `none`. -/
def DBL_MAX_Q : ℚ := 2 ^ 1024

/-- The scan loop of `TrackState::HasDiscontinuityAroundPosition`
(fragmentcollector_hls.cpp:4596-4639) over the discontinuity index:
consider nodes newer than `mLastMatchedDiscontPosition`; without start times
a node inside the open window `(low, high)` matches and the scan breaks; with
start times a node whose parsed program-date-time falls inside the window
marks a pending discontinuity and, while the absolute diff keeps shrinking,
records `diff = discPos - position` and advances the match position,
breaking otherwise.  Accumulators: `lastMatched`, `diffAcc` (`none` is the
`DBL_MAX` initial value) and the pending flag. -/
def discLoop (parsePDT : List Char → Option ℚ) (low high position mCulledSeconds : ℚ)
    (useStartTime : Bool) :
    List DiscontinuityIndexNode → ℚ → Option ℚ → Bool → Bool × Option ℚ × ℚ
  | [], lastMatched, diffAcc, pending => (pending, diffAcc, lastMatched)
  | node :: rest, lastMatched, diffAcc, pending =>
    if lastMatched < 0 ∨ node.position + mCulledSeconds > lastMatched then
      if ¬useStartTime then
        if low < node.position ∧ node.position < high then
          (true, diffAcc, node.position + mCulledSeconds)
        else
          discLoop parsePDT low high position mCulledSeconds useStartTime rest
            lastMatched diffAcc pending
      else
        match node.programDateTime.bind parsePDT with
        | some discPos =>
          if low < discPos ∧ discPos < high then
            let diff := discPos - position
            let shrinking :=
              match diffAcc with
              | none => true
              | some d => decide (|diff| < |d|)
            if shrinking then
              discLoop parsePDT low high position mCulledSeconds useStartTime rest
                (node.position + mCulledSeconds) (some diff) true
            else (true, diffAcc, lastMatched)
          else
            discLoop parsePDT low high position mCulledSeconds useStartTime rest
              lastMatched diffAcc pending
        | none =>
          discLoop parsePDT low high position mCulledSeconds useStartTime rest
            lastMatched diffAcc pending
    else
      discLoop parsePDT low high position mCulledSeconds useStartTime rest
        lastMatched diffAcc pending

/-- Function `TrackState::HasDiscontinuityAroundPosition`
(fragmentcollector_hls.cpp:4586-4685) as one scan of the current index over
the window `position ± 30 s`; returns `(discontinuityPending,
diffBetweenDiscontinuities, updated mLastMatchedDiscontPosition)`.  (On live
playlists the source repeats the scan after playlist refreshes while nothing
matches — a condition-variable wait over shared state; each repetition is
one such scan.) -/
def HasDiscontinuityAroundPosition (parsePDT : List Char → Option ℚ)
    (nodes : List DiscontinuityIndexNode)
    (mCulledSeconds mLastMatchedDiscontPosition position : ℚ)
    (useStartTime : Bool) : Bool × Option ℚ × ℚ :=
  discLoop parsePDT (position - DISCONTINUITY_DISCARD_TOLERANCE_SECONDS)
    (position + DISCONTINUITY_DISCARD_TOLERANCE_SECONDS) position mCulledSeconds
    useStartTime nodes mLastMatchedDiscontPosition none false

/-- The position handed to the other track's matcher
(fragmentcollector_hls.cpp:1134-1151): the program-date-time of the pending
discontinuity when present, the culling-corrected play position otherwise.
When the date-time fails to parse the C code reads an uninitialised
`timeval`; that unspecified value is modelled as 0. -/
def discCheckPosition (parsePDT : List Char → Option ℚ)
    (playTarget mCulledSeconds : ℚ) (programDateTime : Option (List Char)) : ℚ :=
  match programDateTime with
  | none => playTarget - mCulledSeconds
  | some txt => (parsePDT txt).getD 0

/-- Outcome of handling one URI line of the playlist walk. -/
structure UriStepOutcome where
  returnedUri : Bool
  discontinuity : Bool
  playTarget : ℚ
  mSyncAfterDiscontinuityInProgress : Bool
  programDateTime : Option (List Char)
deriving DecidableEq, Repr

/-- The URI-line handling of `TrackState::GetNextFragmentUriFromPlaylist`
(fragmentcollector_hls.cpp:1118-1192).  A URI line whose start has reached
`playTarget` (within the 0.1 s threshold) is a candidate.  With a pending
discontinuity, `ignoreDiscontinuity` unset and the other track enabled, the
other track's index is consulted around `discCheckPosition`: no match drops
the flag; a match with a program-date-time whose `diff` exceeds half a
fragment duration moves `playTarget` to `playlistPosition + diff`, sets
`mSyncAfterDiscontinuityInProgress` and resumes the walk; otherwise the
fragment is returned with its flag.  The returned fragment's flag is OR-ed
with a pending `mSyncAfterDiscontinuityInProgress`, which is then cleared.
A URI line short of `playTarget` is skipped with the flags reset. -/
def selectUriStep (parsePDT : List Char → Option ℚ)
    (otherEnabled : Bool) (otherDiscontinuityIndex : List DiscontinuityIndexNode)
    (otherCulledSeconds otherLastMatchedDiscontPosition : ℚ)
    (ignoreDiscontinuity : Bool)
    (playTarget playlistPosition fragmentDurationSeconds mCulledSeconds : ℚ)
    (mSyncAfterDiscontinuityInProgress : Bool)
    (discontinuity : Bool) (programDateTime : Option (List Char)) : UriStepOutcome :=
  if playlistPosition ≥ playTarget ∨
      playTarget - playlistPosition < PLAYLIST_TIME_DIFF_THRESHOLD_SECONDS then
    if discontinuity ∧ ¬ignoreDiscontinuity ∧ otherEnabled then
      let position := discCheckPosition parsePDT playTarget mCulledSeconds programDateTime
      let hd := HasDiscontinuityAroundPosition parsePDT otherDiscontinuityIndex
        otherCulledSeconds otherLastMatchedDiscontPosition position
        programDateTime.isSome
      if hd.1 = false then
        { returnedUri := true, discontinuity := mSyncAfterDiscontinuityInProgress,
          playTarget := playTarget, mSyncAfterDiscontinuityInProgress := false,
          programDateTime := programDateTime }
      else if programDateTime.isSome then
        let diff := (hd.2.1).getD DBL_MAX_Q
        if diff > fragmentDurationSeconds / 2 then
          { returnedUri := false, discontinuity := false,
            playTarget := playlistPosition + diff,
            mSyncAfterDiscontinuityInProgress := true, programDateTime := none }
        else
          { returnedUri := true, discontinuity := true, playTarget := playTarget,
            mSyncAfterDiscontinuityInProgress := false,
            programDateTime := programDateTime }
      else
        { returnedUri := true, discontinuity := true, playTarget := playTarget,
          mSyncAfterDiscontinuityInProgress := false,
          programDateTime := programDateTime }
    else if discontinuity ∧ ignoreDiscontinuity then
      { returnedUri := true, discontinuity := mSyncAfterDiscontinuityInProgress,
        playTarget := playTarget, mSyncAfterDiscontinuityInProgress := false,
        programDateTime := programDateTime }
    else
      { returnedUri := true,
        discontinuity := discontinuity || mSyncAfterDiscontinuityInProgress,
        playTarget := playTarget, mSyncAfterDiscontinuityInProgress := false,
        programDateTime := programDateTime }
  else
    { returnedUri := false, discontinuity := false, playTarget := playTarget,
      mSyncAfterDiscontinuityInProgress := mSyncAfterDiscontinuityInProgress,
      programDateTime := none }

/-- Helper: with start times in use, a scan over nodes none of whose parsed
program-date-times fall inside the open window finds nothing and leaves the
accumulators untouched. -/
theorem discLoop_no_window_match (parsePDT : List Char → Option ℚ)
    (low high position mc : ℚ) :
    ∀ (nodes : List DiscontinuityIndexNode) (lastMatched : ℚ)
      (diffAcc : Option ℚ) (pending : Bool),
      (∀ node ∈ nodes, ∀ d : ℚ, node.programDateTime.bind parsePDT = some d →
        ¬(low < d ∧ d < high)) →
      discLoop parsePDT low high position mc true nodes lastMatched diffAcc pending
        = (pending, diffAcc, lastMatched) := by
  intro nodes
  induction nodes with
  | nil =>
    intro lm da p h
    rfl
  | cons node rest ih =>
    intro lm da p h
    have hrest : ∀ n ∈ rest, ∀ d : ℚ, n.programDateTime.bind parsePDT = some d →
        ¬(low < d ∧ d < high) :=
      fun n hn => h n (List.mem_cons_of_mem _ hn)
    rw [discLoop]
    by_cases h1 : lm < 0 ∨ node.position + mc > lm
    · rw [if_pos h1]
      simp only [not_true, if_false]
      cases hb : node.programDateTime.bind parsePDT with
      | none => exact ih lm da p hrest
      | some d =>
        have hw := h node (List.mem_cons_self _ _) d hb
        dsimp only
        rw [if_neg hw]
        exact ih lm da p hrest
    · rw [if_neg h1]
      exact ih lm da p hrest

/-- **C1** (counterexample): the code compares the signed `diff` against
`fragment_duration / 2`, not `|diff|`.  With this track's discontinuity
date-time at 100 s, the other track's at 95 s (`diff = −5`, `|diff| = 5 >
fragment_duration/2 = 1`), the claim demands `play_target` advance by `diff`
with the sync flag set; the code instead returns the fragment with
`play_target` unchanged, no sync flag, and the discontinuity flag still on. -/
theorem discontinuity_diff_sign_counterexample :
    |(-5 : ℚ)| > 2 / 2 ∧
    (HasDiscontinuityAroundPosition
        (fun txt =>
          if txt = "T1".toList then some 100
          else if txt = "T2".toList then some 95 else none)
        [⟨1, 50, some "T2".toList⟩] 0 (-1) 100 true).2.1 = some (-5) ∧
    (selectUriStep (fun txt =>
          if txt = "T1".toList then some 100
          else if txt = "T2".toList then some 95 else none)
        true [⟨1, 50, some "T2".toList⟩] 0 (-1) false 10 10 2 0 false true
        (some "T1".toList)).returnedUri = true ∧
    (selectUriStep (fun txt =>
          if txt = "T1".toList then some 100
          else if txt = "T2".toList then some 95 else none)
        true [⟨1, 50, some "T2".toList⟩] 0 (-1) false 10 10 2 0 false true
        (some "T1".toList)).playTarget = 10 ∧
    (selectUriStep (fun txt =>
          if txt = "T1".toList then some 100
          else if txt = "T2".toList then some 95 else none)
        true [⟨1, 50, some "T2".toList⟩] 0 (-1) false 10 10 2 0 false true
        (some "T1".toList)).mSyncAfterDiscontinuityInProgress = false ∧
    (selectUriStep (fun txt =>
          if txt = "T1".toList then some 100
          else if txt = "T2".toList then some 95 else none)
        true [⟨1, 50, some "T2".toList⟩] 0 (-1) false 10 10 2 0 false true
        (some "T1".toList)).discontinuity = true := by
  refine ⟨by norm_num, ?_, ?_⟩
  · simp +decide [HasDiscontinuityAroundPosition, discLoop,
      DISCONTINUITY_DISCARD_TOLERANCE_SECONDS]
    norm_num
  · simp +decide [selectUriStep, HasDiscontinuityAroundPosition, discLoop,
      discCheckPosition, DISCONTINUITY_DISCARD_TOLERANCE_SECONDS,
      PLAYLIST_TIME_DIFF_THRESHOLD_SECONDS, DBL_MAX_Q]
    norm_num

/-- **C1** (amended).  At a selection point of the normal-play walk with a
pending discontinuity, `ignore_discontinuity` unset and the other track
enabled: (1) when the other track's matcher finds nothing, the fragment is
returned with the discontinuity flag dropped; (2) when it matches and this
track has a program-date-time with `diff = other_disc_time − this_disc_time`,
the walk advances only for `diff > fragment_duration / 2` (the signed
comparison — not `|diff|`), setting `play_target` to `playlist_position +
diff` and raising `sync_after_discontinuity_in_progress`; (3) the matcher
reports no discontinuity whenever no node's parsed program-date-time lies in
the open window `position ± 30 s`. -/
theorem discontinuity_drop_and_signed_diff_advance :
    (∀ (parsePDT : List Char → Option ℚ)
        (otherNodes : List DiscontinuityIndexNode) (oc olm pt pp fd mc : ℚ)
        (pdt : Option (List Char)),
      (pp ≥ pt ∨ pt - pp < PLAYLIST_TIME_DIFF_THRESHOLD_SECONDS) →
      (HasDiscontinuityAroundPosition parsePDT otherNodes oc olm
          (discCheckPosition parsePDT pt mc pdt) pdt.isSome).1 = false →
      (selectUriStep parsePDT true otherNodes oc olm false pt pp fd mc false true
          pdt).returnedUri = true ∧
      (selectUriStep parsePDT true otherNodes oc olm false pt pp fd mc false true
          pdt).discontinuity = false) ∧
    (∀ (parsePDT : List Char → Option ℚ)
        (otherNodes : List DiscontinuityIndexNode) (oc olm pt pp fd mc : ℚ)
        (txt : List Char) (d : ℚ) (sync : Bool),
      (pp ≥ pt ∨ pt - pp < PLAYLIST_TIME_DIFF_THRESHOLD_SECONDS) →
      (HasDiscontinuityAroundPosition parsePDT otherNodes oc olm
          (discCheckPosition parsePDT pt mc (some txt)) true).1 = true →
      (HasDiscontinuityAroundPosition parsePDT otherNodes oc olm
          (discCheckPosition parsePDT pt mc (some txt)) true).2.1 = some d →
      d > fd / 2 →
      (selectUriStep parsePDT true otherNodes oc olm false pt pp fd mc sync true
          (some txt)).returnedUri = false ∧
      (selectUriStep parsePDT true otherNodes oc olm false pt pp fd mc sync true
          (some txt)).playTarget = pp + d ∧
      (selectUriStep parsePDT true otherNodes oc olm false pt pp fd mc sync true
          (some txt)).mSyncAfterDiscontinuityInProgress = true ∧
      (selectUriStep parsePDT true otherNodes oc olm false pt pp fd mc sync true
          (some txt)).discontinuity = false) ∧
    (∀ (parsePDT : List Char → Option ℚ)
        (otherNodes : List DiscontinuityIndexNode) (oc olm pos : ℚ),
      (∀ node ∈ otherNodes, ∀ d : ℚ, node.programDateTime.bind parsePDT = some d →
        ¬(pos - DISCONTINUITY_DISCARD_TOLERANCE_SECONDS < d ∧
          d < pos + DISCONTINUITY_DISCARD_TOLERANCE_SECONDS)) →
      (HasDiscontinuityAroundPosition parsePDT otherNodes oc olm pos true).1
        = false) := by
  refine ⟨?_, ?_, ?_⟩
  · intro parsePDT otherNodes oc olm pt pp fd mc pdt hsel hfalse
    unfold selectUriStep
    rw [if_pos hsel]
    have hcond : (true : Bool) ∧ ¬(false : Bool) ∧ (true : Bool) := by simp
    rw [if_pos hcond]
    dsimp only
    rw [hfalse]
    simp
  · intro parsePDT otherNodes oc olm pt pp fd mc txt d sync hsel htrue hdiff hgt
    unfold selectUriStep
    rw [if_pos hsel]
    have hcond : (true : Bool) ∧ ¬(false : Bool) ∧ (true : Bool) := by simp
    rw [if_pos hcond]
    dsimp only
    simp only [Option.isSome_some] at htrue hdiff ⊢
    rw [htrue]
    simp only [Bool.true_eq_false, if_false, if_true, hdiff]
    simp only [Option.getD_some]
    rw [if_pos hgt]
    simp
  · intro parsePDT otherNodes oc olm pos hmiss
    unfold HasDiscontinuityAroundPosition
    rw [discLoop_no_window_match]
    exact hmiss

/-- Witness for C1: this track's discontinuity date-time parses to 100 s; a
matcher over a node at 200 s (outside the ±30 s window) finds nothing and the
flag is dropped; a matcher over a node at 103 s gives `diff = 3 >
fragment_duration/2 = 1`, so the walk moves `play_target` from 10 to 13 with
the sync flag raised. -/
theorem discontinuity_drop_and_signed_diff_advance_witness :
    ((selectUriStep
        (fun txt => if txt = "T1".toList then some 100
          else if txt = "T3".toList then some 200 else none)
        true [⟨1, 50, some "T3".toList⟩] 0 (-1) false 10 10 2 0 false true
        (some "T1".toList)).returnedUri = true ∧
      (selectUriStep
        (fun txt => if txt = "T1".toList then some 100
          else if txt = "T3".toList then some 200 else none)
        true [⟨1, 50, some "T3".toList⟩] 0 (-1) false 10 10 2 0 false true
        (some "T1".toList)).discontinuity = false) ∧
    ((selectUriStep
        (fun txt => if txt = "T1".toList then some 100
          else if txt = "T4".toList then some 103 else none)
        true [⟨1, 50, some "T4".toList⟩] 0 (-1) false 10 10 2 0 false true
        (some "T1".toList)).returnedUri = false ∧
      (selectUriStep
        (fun txt => if txt = "T1".toList then some 100
          else if txt = "T4".toList then some 103 else none)
        true [⟨1, 50, some "T4".toList⟩] 0 (-1) false 10 10 2 0 false true
        (some "T1".toList)).playTarget = 10 + 3 ∧
      (selectUriStep
        (fun txt => if txt = "T1".toList then some 100
          else if txt = "T4".toList then some 103 else none)
        true [⟨1, 50, some "T4".toList⟩] 0 (-1) false 10 10 2 0 false true
        (some "T1".toList)).mSyncAfterDiscontinuityInProgress = true) := by
  constructor
  · have hpos : discCheckPosition
        (fun txt => if txt = "T1".toList then some 100
          else if txt = "T3".toList then some 200 else none) 10 0
        (some "T1".toList) = 100 := by
      simp +decide [discCheckPosition]
    have hfalse : (HasDiscontinuityAroundPosition
        (fun txt => if txt = "T1".toList then some 100
          else if txt = "T3".toList then some 200 else none)
        [⟨1, 50, some "T3".toList⟩] 0 (-1)
        (discCheckPosition
          (fun txt => if txt = "T1".toList then some 100
            else if txt = "T3".toList then some 200 else none) 10 0
          (some "T1".toList))
        (some "T1".toList).isSome).1 = false := by
      rw [hpos]
      apply (discontinuity_drop_and_signed_diff_advance).2.2
      intro node hn d hd
      simp only [List.mem_singleton] at hn
      subst hn
      simp +decide at hd
      subst hd
      norm_num [DISCONTINUITY_DISCARD_TOLERANCE_SECONDS]
    exact (discontinuity_drop_and_signed_diff_advance).1
      (fun txt => if txt = "T1".toList then some 100
        else if txt = "T3".toList then some 200 else none)
      [⟨1, 50, some "T3".toList⟩] 0 (-1) 10 10 2 0 (some "T1".toList)
      (Or.inl (by norm_num)) hfalse
  · have htrue : (HasDiscontinuityAroundPosition
        (fun txt => if txt = "T1".toList then some 100
          else if txt = "T4".toList then some 103 else none)
        [⟨1, 50, some "T4".toList⟩] 0 (-1)
        (discCheckPosition
          (fun txt => if txt = "T1".toList then some 100
            else if txt = "T4".toList then some 103 else none) 10 0
          (some "T1".toList)) true).1 = true := by
      simp +decide [HasDiscontinuityAroundPosition, discLoop, discCheckPosition,
        DISCONTINUITY_DISCARD_TOLERANCE_SECONDS]
      norm_num
    have hdiff : (HasDiscontinuityAroundPosition
        (fun txt => if txt = "T1".toList then some 100
          else if txt = "T4".toList then some 103 else none)
        [⟨1, 50, some "T4".toList⟩] 0 (-1)
        (discCheckPosition
          (fun txt => if txt = "T1".toList then some 100
            else if txt = "T4".toList then some 103 else none) 10 0
          (some "T1".toList)) true).2.1 = some 3 := by
      simp +decide [HasDiscontinuityAroundPosition, discLoop, discCheckPosition,
        DISCONTINUITY_DISCARD_TOLERANCE_SECONDS]
      norm_num
    have h := (discontinuity_drop_and_signed_diff_advance).2.1
      (fun txt => if txt = "T1".toList then some 100
        else if txt = "T4".toList then some 103 else none)
      [⟨1, 50, some "T4".toList⟩] 0 (-1) 10 10 2 0 "T1".toList 3 false
      (Or.inl (by norm_num)) htrue hdiff (by norm_num)
    exact ⟨h.1, h.2.1, h.2.2.1⟩

end AampHls
